import Mathlib

/-!
Verification development for the `python-avm2` AVM2 interpreter.

The Python sources are shallowly embedded:
* pure functions become Lean functions;
* in-place mutation of `MemoryViewReader` / `MethodEnvironment` becomes
  explicit state passing;
* Python exceptions (`IndexError`, `KeyError`, `TypeError`,
  `AssertionError`, `NotImplementedError`, `struct.error`,
  `UnicodeDecodeError`, and the control-flow signals `ASReturnException`,
  `ASJumpException` from `avm2/exceptions.py`) become an explicit error
  type threaded through `Except`;
* Python machine integers are exact (`Nat`/`Int`), as in CPython;
* IEEE-754 doubles are represented by their 64-bit pattern (a `Nat`),
  which is faithful because the embedded code only moves bytes into
  doubles and never computes with them.
-/

namespace AVM2

/-- Keys of the Python property dictionaries.  In the source, property maps
are keyed by `(namespace, name)` tuples whose components are strings,
integers or `None` (see `avm2/runtime.py` and the `NewClass` /
`InitProperty` handlers). -/
inductive PKey where
  | pStr (s : String)
  | pInt (n : Int)
  | pNone
deriving DecidableEq, Repr

/-- Runtime values.  This is the single value domain flowing through
registers, the operand stack, the scope stack and property slots:
Python ints, strings, bools, `None`, the `undefined` singleton
(`ASUndefined` in `avm2/runtime.py`), the `Ellipsis` placeholder
(used by `vm.py` both to fill fresh registers and as the `this` of
`execute_script`), Python lists, and the `ASObject` family.
`obj` carries `class_index` and the property dictionary (as an
association list in insertion order); `strObj` is `ASString` (its
per-class `properties` dict is modelled separately); `arrObj` is
`ASArray` with its instance `properties` dict and backing list. -/
inductive ASValue where
  | vInt (n : Int)
  | vStr (s : String)
  | vBool (b : Bool)
  | vNone
  | vUndefined
  | vEllipsis
  | vList (xs : List ASValue)
  | obj (classIndex : Option Nat) (props : List ((PKey × PKey) × ASValue))
  | strObj (s : String)
  | arrObj (props : List ((PKey × PKey) × ASValue)) (xs : List ASValue)

/-- Exceptions of the embedded Python code.  `asReturnException` and
`asJumpException` are the control-transfer signals raised by the
`returnvalue`/`returnvoid` and branch handlers (from `avm2/exceptions.py`,
imported by `avm2/abc/instructions.py`). -/
inductive PyExc where
  | indexError
  | keyError
  | valueError
  | structError
  | unicodeDecodeError
  | assertionError
  | attributeError
  | typeError (msg : String)
  | notImplementedErr (msg : String)
  | asReturnException (value : ASValue)
  | asJumpException (offset : Int)

/-- Python `list.pop()`: removes and returns the LAST element (the top of
a Python-list stack); raises `IndexError` on an empty list. -/
def pyPop {α : Type} (l : List α) : Except PyExc (α × List α) :=
  match l.getLast? with
  | none => .error .indexError
  | some v => .ok (v, l.dropLast)

/-! ## Byte reader (`avm2/io/__init__.py`, class `MemoryViewReader`)

The buffer is a list of byte values (each `< 256` for real memoryviews)
together with a position. -/

structure MemoryViewReader where
  buffer : List Nat
  position : Nat
deriving Repr

namespace MemoryViewReader

/-- Python `read(size)`: `value = self.buffer[self.position:self.position + size]`,
then `self.position += len(value)`.  Python slicing past the end silently
returns the available (possibly empty) prefix; no error is ever raised. -/
def read (r : MemoryViewReader) (size : Nat) :
    Except PyExc (List Nat × MemoryViewReader) :=
  let value := (r.buffer.drop r.position).take size
  .ok (value, { r with position := r.position + value.length })

/-- Python `read_u8`: `self.buffer[self.position]` raises `IndexError`
past the end; otherwise returns the byte and advances by one. -/
def read_u8 (r : MemoryViewReader) : Except PyExc (Nat × MemoryViewReader) :=
  match r.buffer.get? r.position with
  | none => .error .indexError
  | some b => .ok (b, { r with position := r.position + 1 })

/-- Python `read_until(sentinel)`: scans `self.buffer[self.position + length]`
for increasing `length` until the sentinel; raises `IndexError` when the scan
runs past the buffer (no sentinel).  Consumes the prefix and the sentinel. -/
def read_until (r : MemoryViewReader) (sentinel : Nat) :
    Except PyExc (List Nat × MemoryViewReader) :=
  match (r.buffer.drop r.position).findIdx? (· = sentinel) with
  | none => .error .indexError
  | some len =>
      .ok ((r.buffer.drop r.position).take len,
           { r with position := r.position + len + 1 })

end MemoryViewReader

/-! ### UTF-8 (CPython `bytes.decode('utf-8')`, strict mode)

Used by `read_string`.  The decoder below models RFC 3629 exactly:
overlong encodings, surrogates and code points above `0x10FFFF` are
rejected, as CPython does in strict mode. -/

/-- Check for a UTF-8 continuation byte. -/
def isCont (b : Nat) : Bool := 0x80 ≤ b && b ≤ 0xBF

/-- Decode a byte list to code points; `fuel` bounds recursion and is
always instantiated with the length of the list. -/
def utf8Loop : Nat → List Nat → Option (List Char)
  | _, [] => some []
  | 0, _ :: _ => none
  | f + 1, b :: rest =>
    if b < 0x80 then
      (utf8Loop f rest).map (fun cs => Char.ofNat b :: cs)
    else if b < 0xC2 then none
    else if b ≤ 0xDF then
      match rest with
      | c1 :: rest1 =>
        if isCont c1 then
          (utf8Loop f rest1).map (fun cs => Char.ofNat ((b - 0xC0) * 64 + (c1 - 0x80)) :: cs)
        else none
      | [] => none
    else if b ≤ 0xEF then
      match rest with
      | c1 :: c2 :: rest2 =>
        let lo1 := if b = 0xE0 then 0xA0 else 0x80
        let hi1 := if b = 0xED then 0x9F else 0xBF
        if lo1 ≤ c1 && c1 ≤ hi1 && isCont c2 then
          (utf8Loop f rest2).map
            (fun cs => Char.ofNat ((b - 0xE0) * 4096 + (c1 - 0x80) * 64 + (c2 - 0x80)) :: cs)
        else none
      | _ => none
    else if b ≤ 0xF4 then
      match rest with
      | c1 :: c2 :: c3 :: rest3 =>
        let lo1 := if b = 0xF0 then 0x90 else 0x80
        let hi1 := if b = 0xF4 then 0x8F else 0xBF
        if lo1 ≤ c1 && c1 ≤ hi1 && isCont c2 && isCont c3 then
          (utf8Loop f rest3).map
            (fun cs => Char.ofNat ((b - 0xF0) * 262144 + (c1 - 0x80) * 4096
              + (c2 - 0x80) * 64 + (c3 - 0x80)) :: cs)
        else none
      | _ => none
    else none

/-- CPython `bytes(bs).decode('utf-8')` in strict mode: `some` the decoded
string, or `none` for a `UnicodeDecodeError`. -/
def pyUtf8Decode (bs : List Nat) : Option String :=
  (utf8Loop bs.length bs).map (fun cs => String.mk cs)

namespace MemoryViewReader

/-- Python `read_string`: null-terminated UTF-8; `read_until(0)` then
strict UTF-8 decoding (`UnicodeDecodeError` on invalid bytes). -/
def read_string (r : MemoryViewReader) :
    Except PyExc (String × MemoryViewReader) :=
  match r.read_until 0 with
  | .error e => .error e
  | .ok (bs, r1) =>
    match pyUtf8Decode bs with
    | none => .error .unicodeDecodeError
    | some s => .ok (s, r1)

/-- Python staticmethod `extend_sign(value, mask)`:
`(value & (mask - 1)) - (value & mask)` over exact integers. -/
def extend_sign (value mask : Nat) : Int :=
  ((value &&& (mask - 1) : Nat) : Int) - ((value &&& mask : Nat) : Int)

/-- Loop body of `read_int`: `for i in range(0, 35, 7)` accumulating
`value |= (byte & 0x7F) << i` and breaking at the first byte with the
high bit clear.  Returns the accumulated value, the final value of the
loop variable `i`, and the advanced reader.  The `[]` case is never
reached from `read_int` (the shift list is `[0, 7, 14, 21, 28]`). -/
def readIntLoop : List Nat → Nat → MemoryViewReader →
    Except PyExc (Nat × Nat × MemoryViewReader)
  | [], value, r => .ok (value, 0, r)
  | i :: rest, value, r =>
    match r.read_u8 with
    | .error e => .error e
    | .ok (byte, r1) =>
      let value1 := value ||| ((byte &&& 0x7F) <<< i)
      if byte &&& 0x80 = 0 then .ok (value1, i, r1)
      else
        match rest with
        | [] => .ok (value1, i, r1)
        | _ :: _ => readIntLoop rest value1 r1

/-- Python `read_int(unsigned)`: variable-length encoded 32-bit integer
(u30/u32/s32).  Up to five bytes of 7-bit groups, low to high; in signed
mode the result is `extend_sign(value, 0x40 << i)` for the last shift `i`. -/
def read_int (r : MemoryViewReader) (unsigned : Bool := true) :
    Except PyExc (Int × MemoryViewReader) :=
  match readIntLoop [0, 7, 14, 21, 28] 0 r with
  | .error e => .error e
  | .ok (value, i, r1) =>
    if unsigned then .ok ((value : Int), r1)
    else .ok (extend_sign value (0x40 <<< i), r1)

/-- Python `read_d64`: eight little-endian bytes into an IEEE-754 binary64.
The double is represented by its 64-bit pattern; `struct.unpack` raises
`struct.error` when fewer than eight bytes remain. -/
def read_d64 (r : MemoryViewReader) : Except PyExc (Nat × MemoryViewReader) :=
  match r.read 8 with
  | .error e => .error e
  | .ok (bs, r1) =>
    if bs.length = 8 then
      .ok ((bs.reverse.foldl (fun acc b => acc * 256 + b) 0), r1)
    else .error .structError

/-- Python `read_s24`: three little-endian bytes, zero-padded to 32 bits
(`U32.unpack(self.read(3).tobytes() + b'\x00')`), then sign extension
from bit 23 (`extend_sign(value, 0x00800000)`).  `struct.error` when
fewer than three bytes remain. -/
def read_s24 (r : MemoryViewReader) : Except PyExc (Int × MemoryViewReader) :=
  match r.read 3 with
  | .error e => .error e
  | .ok (bs, r1) =>
    match bs with
    | [b0, b1, b2] => .ok (extend_sign (b0 + 256 * b1 + 65536 * b2) 0x800000, r1)
    | _ => .error .structError

end MemoryViewReader

/-! ## ABC decoder (`avm2/abc/types.py`)

The helpers `read_array`, `read_array_with_default` and `read_string`
are imported by `avm2/abc/types.py` from `avm2/abc/parser.py`, which is
not part of the sources; likewise the enumerations come from
`avm2/abc/enums.py`.  They are modelled from the spec where marked. -/

/-- Read `n` elements with the element reader `f`, left to right. -/
def readN {α : Type} (f : MemoryViewReader → Except PyExc (α × MemoryViewReader)) :
    Nat → MemoryViewReader → Except PyExc (List α × MemoryViewReader)
  | 0, r => .ok ([], r)
  | n + 1, r =>
    match f r with
    | .error e => .error e
    | .ok (a, r1) =>
      match readN f n r1 with
      | .error e => .error e
      | .ok (as, r2) => .ok (a :: as, r2)

/-- Read an unsigned variable-length count (`u30`) as a `Nat`;
`read_int` in unsigned mode never returns a negative value. -/
def readU30 (r : MemoryViewReader) : Except PyExc (Nat × MemoryViewReader) :=
  match r.read_int true with
  | .error e => .error e
  | .ok (v, r1) => .ok (v.toNat, r1)

/-- Modelled from the spec: `read_array` of `avm2/abc/parser.py` (not under
`src/`).  Spec §4.2: each `xxx[]` is prefixed by a variable-length count
`n`, then `n` entries; when an explicit count is passed no prefix is read. -/
def read_array {α : Type} (f : MemoryViewReader → Except PyExc (α × MemoryViewReader))
    (count : Option Nat) (r : MemoryViewReader) :
    Except PyExc (List α × MemoryViewReader) :=
  match count with
  | some n => readN f n r
  | none =>
    match readU30 r with
    | .error e => .error e
    | .ok (n, r1) => readN f n r1

/-- Modelled from the spec: `read_array_with_default` of
`avm2/abc/parser.py` (not under `src/`).  Spec §4.2: constant pools read
a count `n` then `n - 1` elements, because index 0 is reserved for the
default sentinel, which is placed at the head. -/
def read_array_with_default {α : Type}
    (f : MemoryViewReader → Except PyExc (α × MemoryViewReader)) (default : α)
    (r : MemoryViewReader) : Except PyExc (List α × MemoryViewReader) :=
  match readU30 r with
  | .error e => .error e
  | .ok (n, r1) =>
    match readN f (n - 1) r1 with
    | .error e => .error e
    | .ok (as, r2) => .ok (default :: as, r2)

/-- Modelled from the spec: the `NamespaceKind` values of
`avm2/abc/enums.py` (not under `src/`); spec glossary lists the kinds
(package 0x16, private 0x05, protected 0x18, internal 0x17, explicit
0x19, static-protected 0x1A, namespace 0x08), as in the published AVM2
layout.  Python's `NamespaceKind(x)` raises `ValueError` for other bytes. -/
def namespaceKinds : List Nat := [0x08, 0x16, 0x17, 0x18, 0x19, 0x1A, 0x05]

/-- Modelled from the spec: the `MultinameKind` values of
`avm2/abc/enums.py` (not under `src/`), as in the published AVM2 layout:
QName 0x07, QNameA 0x0D, RTQName 0x0F, RTQNameA 0x10, RTQNameL 0x11,
RTQNameLA 0x12, Multiname 0x09, MultinameA 0x0E, MultinameL 0x1B,
MultinameLA 0x1C, TypeName 0x1D. -/
def multinameKinds : List Nat :=
  [0x07, 0x0D, 0x0F, 0x10, 0x11, 0x12, 0x09, 0x0E, 0x1B, 0x1C, 0x1D]

/-- Decoded `ASNamespace` (from `avm2/abc/types.py`): a kind byte and a
string-pool index. -/
structure ASNamespace where
  kind : Nat
  name_index : Nat
deriving Repr, DecidableEq

/-- Python `ASNamespace.__init__`: `NamespaceKind(reader.read_u8())`
(raising `ValueError` on an unknown kind byte) then `read_int()`. -/
def ASNamespace.read (r : MemoryViewReader) :
    Except PyExc (ASNamespace × MemoryViewReader) :=
  match r.read_u8 with
  | .error e => .error e
  | .ok (k, r1) =>
    if namespaceKinds.contains k then
      match readU30 r1 with
      | .error e => .error e
      | .ok (n, r2) => .ok (⟨k, n⟩, r2)
    else .error .valueError

/-- Decoded `ASNamespaceSet`: a counted array of namespace-pool indices. -/
structure ASNamespaceSet where
  namespaces : List Nat
deriving Repr, DecidableEq

/-- Python `ASNamespaceSet.__init__`: `read_array(reader, read_int)`. -/
def ASNamespaceSet.read (r : MemoryViewReader) :
    Except PyExc (ASNamespaceSet × MemoryViewReader) :=
  match read_array readU30 none r with
  | .error e => .error e
  | .ok (ns, r1) => .ok (⟨ns⟩, r1)

/-- Decoded `ASMultiname` (from `avm2/abc/types.py`): kind byte plus the
optional per-kind fields. -/
structure ASMultiname where
  kind : Nat
  namespace_index : Option Nat := none
  name_index : Option Nat := none
  namespace_set_index : Option Nat := none
  q_name_index : Option Nat := none
  type_indices : Option (List Nat) := none
deriving Repr, DecidableEq

/-- Python `ASMultiname.__init__`: `MultinameKind(reader.read_u8())`
(raising `ValueError` on an unknown kind byte), then the per-kind field
layout dispatched exactly as in the source. -/
def ASMultiname.read (r : MemoryViewReader) :
    Except PyExc (ASMultiname × MemoryViewReader) :=
  match r.read_u8 with
  | .error e => .error e
  | .ok (k, r1) =>
    if k = 0x07 ∨ k = 0x0D then
      match readU30 r1 with
      | .error e => .error e
      | .ok (ns, r2) =>
        match readU30 r2 with
        | .error e => .error e
        | .ok (n, r3) => .ok ({ kind := k, namespace_index := some ns, name_index := some n }, r3)
    else if k = 0x0F ∨ k = 0x10 then
      match readU30 r1 with
      | .error e => .error e
      | .ok (n, r2) => .ok ({ kind := k, name_index := some n }, r2)
    else if k = 0x11 ∨ k = 0x12 then
      .ok ({ kind := k }, r1)
    else if k = 0x09 ∨ k = 0x0E then
      match readU30 r1 with
      | .error e => .error e
      | .ok (n, r2) =>
        match readU30 r2 with
        | .error e => .error e
        | .ok (s, r3) => .ok ({ kind := k, name_index := some n, namespace_set_index := some s }, r3)
    else if k = 0x1B ∨ k = 0x1C then
      match readU30 r1 with
      | .error e => .error e
      | .ok (s, r2) => .ok ({ kind := k, namespace_set_index := some s }, r2)
    else if k = 0x1D then
      match readU30 r1 with
      | .error e => .error e
      | .ok (q, r2) =>
        match read_array readU30 none r2 with
        | .error e => .error e
        | .ok (ts, r3) => .ok ({ kind := k, q_name_index := some q, type_indices := some ts }, r3)
    else .error .valueError

/-- Bit pattern of CPython's `math.nan` (IEEE-754 binary64 quiet NaN). -/
def nanBits : Nat := 0x7FF8000000000000

/-- NaN test on an IEEE-754 binary64 bit pattern: exponent all ones and
non-zero mantissa. -/
def isNaN64 (bits : Nat) : Bool :=
  ((bits >>> 52) &&& 0x7FF) = 0x7FF && (bits &&& 0xFFFFFFFFFFFFF) ≠ 0

/-- Decoded constant pool (`ASConstantPool` in `avm2/abc/types.py`).
Pools whose Python default is `None` hold `Option` elements; doubles are
represented by their bit patterns. -/
structure ASConstantPool where
  integers : List Int
  unsigned_integers : List Int
  doubles : List Nat
  strings : List (Option String)
  namespaces : List (Option ASNamespace)
  ns_sets : List (Option ASNamespaceSet)
  multinames : List (Option ASMultiname)

/-- Wrap an element reader so its results populate an `Option`-valued
pool (the Python pools mix the `None` default with decoded elements). -/
def readSome {α : Type} (f : MemoryViewReader → Except PyExc (α × MemoryViewReader))
    (r : MemoryViewReader) : Except PyExc (Option α × MemoryViewReader) :=
  match f r with
  | .error e => .error e
  | .ok (a, r1) => .ok (some a, r1)

/-- Python `ASConstantPool.__init__`: the seven pools in file order, each
via `read_array_with_default` with its sentinel: signed integers
(default 0), unsigned integers (default 0), doubles (default `math.nan`),
strings (default `None`), namespaces (default `None`), namespace sets
(default `None`), multinames (default `None`). -/
def ASConstantPool.read (r : MemoryViewReader) :
    Except PyExc (ASConstantPool × MemoryViewReader) :=
  match read_array_with_default (fun r => r.read_int false) 0 r with
  | .error e => .error e
  | .ok (ints, r1) =>
    match read_array_with_default (fun r => r.read_int true) 0 r1 with
    | .error e => .error e
    | .ok (uints, r2) =>
      match read_array_with_default MemoryViewReader.read_d64 nanBits r2 with
      | .error e => .error e
      | .ok (dbls, r3) =>
        match read_array_with_default (readSome MemoryViewReader.read_string) none r3 with
        | .error e => .error e
        | .ok (strs, r4) =>
          match read_array_with_default (readSome ASNamespace.read) none r4 with
          | .error e => .error e
          | .ok (nss, r5) =>
            match read_array_with_default (readSome ASNamespaceSet.read) none r5 with
            | .error e => .error e
            | .ok (sets, r6) =>
              match read_array_with_default (readSome ASMultiname.read) none r6 with
              | .error e => .error e
              | .ok (mns, r7) => .ok (⟨ints, uints, dbls, strs, nss, sets, mns⟩, r7)

/-! ## Runtime value model (`avm2/runtime.py`) -/

/-- Python dictionary lookup `d[key]`: the bound value, or `KeyError`. -/
def dictGet (props : List ((PKey × PKey) × ASValue)) (k : PKey × PKey) :
    Except PyExc ASValue :=
  match props.lookup k with
  | none => .error .keyError
  | some v => .ok v

/-- Initial state of the class-level `ASString.properties` dictionary
(`ClassVar`, empty at module load; no embedded code ever fills it). -/
def asStringClassProps : List ((PKey × PKey) × ASValue) := []

/-- Dispatch of `get_property(self, namespace, name)` over the runtime
object family of `avm2/runtime.py`:
* `ASObject` (also `ASUndefined`): own-property dictionary lookup,
  `KeyError` when absent;
* `ASString`: an integer `name` in `[0, len(value))` yields the
  one-character host string `self.value[name]`; otherwise the lookup
  falls through to the class-level `ASString.properties` dictionary;
* `ASArray`: an integer `name` in `[0, len(value))` yields the element;
  otherwise `super().get_property` consults the instance dictionary;
* non-objects have no `get_property` method (`AttributeError`). -/
def get_property : ASValue → PKey → PKey → Except PyExc ASValue
  | .obj _ props, ns, name => dictGet props (ns, name)
  | .vUndefined, ns, name => dictGet [] (ns, name)
  | .strObj s, ns, name =>
    match name with
    | .pInt i =>
      if 0 ≤ i ∧ i < (s.length : Int) then
        match s.data.get? i.toNat with
        | some c => .ok (.vStr (String.mk [c]))
        | none => .error .indexError
      else dictGet asStringClassProps (ns, name)
    | _ => dictGet asStringClassProps (ns, name)
  | .arrObj props xs, ns, name =>
    match name with
    | .pInt i =>
      if 0 ≤ i ∧ i < (xs.length : Int) then
        match xs.get? i.toNat with
        | some v => .ok v
        | none => .error .indexError
      else dictGet props (ns, name)
    | _ => dictGet props (ns, name)
  | _, _, _ => .error .attributeError

/-! ## Name resolver

The attributes `multinames`, `global_object` and the methods
`resolve_multiname_identifiers`, `resolve_multiname`, `resolve_qname`
are referenced by the handlers in `avm2/abc/instructions.py` but are not
defined by the `VirtualMachine` under `src/`; they are modelled from
spec §4.4. -/

/-- Modelled from the spec: a multiname as seen by the resolver, with
namespaces and names already read from the constant pool (spec §3):
fully qualified `QName`, runtime-namespace `RTQName`, a static name over
a namespace set (`Multiname`), and a runtime name over a namespace set
(`MultinameL`). -/
inductive RTMultiname where
  | qName (ns name : String)
  | rtqName (name : String)
  | multiname (name : String) (nsSet : List String)
  | multinameL (nsSet : List String)

/-- Coerce an operand-stack value popped as a runtime namespace or name
to its string form. -/
def asNameString : ASValue → Except PyExc String
  | .vStr s => .ok s
  | .strObj s => .ok s
  | _ => .error (.typeError "expected a string")

/-- Modelled from the spec: `resolve_multiname_identifiers` — produce the
`(name, candidate namespaces)` pair of a multiname, popping the required
runtime name and/or namespace from the operand stack (spec §4.4).
Returns the identifiers and the remaining operand stack. -/
def resolve_multiname_identifiers (stack : List ASValue) :
    RTMultiname → Except PyExc ((String × List String) × List ASValue)
  | .qName ns name => .ok ((name, [ns]), stack)
  | .rtqName name =>
    match pyPop stack with
    | .error e => .error e
    | .ok (v, stack1) =>
      match asNameString v with
      | .error e => .error e
      | .ok ns => .ok ((name, [ns]), stack1)
  | .multiname name nsSet => .ok ((name, nsSet), stack)
  | .multinameL nsSet =>
    match pyPop stack with
    | .error e => .error e
    | .ok (v, stack1) =>
      match asNameString v with
      | .error e => .error e
      | .ok name => .ok ((name, nsSet), stack1)

/-- Modelled from the spec: `resolve_multiname` — scan the search list of
objects innermost first; for each object try each candidate namespace in
set order; the first object containing a matching `(namespace, name)`
binding wins, yielding `(owner, name, namespace)`; raise `KeyError` when
no searched object matches (spec §4.4). -/
def resolve_multiname (objects : List ASValue) (name : String)
    (namespaces : List String) : Except PyExc (ASValue × String × String) :=
  match objects with
  | [] => .error .keyError
  | o :: rest =>
    match namespaces.find? (fun ns => (get_property o (.pStr ns) (.pStr name)).isOk) with
    | some ns => .ok (o, name, ns)
    | none => resolve_multiname rest name namespaces

/-- Modelled from the spec: `resolve_qname` — read the value bound under
the already-resolved `(namespace, name)` on its owner. -/
def resolve_qname (parent : ASValue) (ns name : String) : Except PyExc ASValue :=
  get_property parent (.pStr ns) (.pStr name)

/-! ## Method environments and the VM (`avm2/vm.py`) -/

/-- Python dataclass `MethodEnvironment`: registers plus the operand and
scope stacks (both lists with the top at the END, as Python `append`/`pop`
use). -/
structure MethodEnvironment where
  registers : List ASValue
  operand_stack : List ASValue := []
  scope_stack : List ASValue := []

/-- Decoded `ASOptionDetail` (`avm2/abc/types.py`): a constant-pool index
and a kind byte, consumed only by the unimplemented `get_optional_value`. -/
structure ASOptionDetail where
  value : Nat
  kind : Nat

/-- Decoded method record as `vm.py` reads it: `param_count`, `flags`
(bit mask) and the optional-default list, `None` unless `HAS_OPTIONAL`
was set (`avm2/abc/types.py` declares further fields the executor never
touches). -/
structure ASMethod where
  param_count : Nat
  flags : Nat
  options : Option (List ASOptionDetail) := none

/-- Modelled from the spec: `MethodFlags.NEED_ARGUMENTS` of
`avm2/abc/enums.py` (not under `src/`), bit 0x01 per the published AVM2
layout (spec §3 lists the flag names). -/
def NEED_ARGUMENTS : Nat := 0x01

/-- Modelled from the spec: `MethodFlags.NEED_REST` of
`avm2/abc/enums.py` (not under `src/`), bit 0x04 per the published AVM2
layout (spec §3 lists the flag names). -/
def NEED_REST : Nat := 0x04

/-- Decoded method body as `vm.py` reads it: the owning method index
(`method_body.method`), the register count and the raw code bytes
(`avm2/abc/types.py` declares further fields the executor never
touches). -/
structure ASMethodBody where
  method : Nat
  local_count : Nat
  code : List Nat

/-- Decoded script as `vm.py` reads it: the initializer method index
(`script.init`). -/
structure ASScript where
  init : Nat

/-- Virtual machine state as the instruction handlers see it.  `methods`,
`method_bodies` and `scripts` are the decoded `ABCFile` tables held by
`VirtualMachine` (vm-view records below keep exactly the fields the
executor reads).  `multinames` and `global_object` are referenced by the
handlers but not defined by `vm.py` under `src/`; they are modelled from
the spec (§4.4, §4.6). -/
structure VirtualMachine where
  methods : List ASMethod
  method_bodies : List ASMethodBody
  scripts : List ASScript
  multinames : List RTMultiname
  global_object : ASValue

/-! ## Instruction set (`avm2/abc/instructions.py`)

Only the opcodes whose `execute` bodies the claims exercise are given
their semantics; every other opcode is decoded to `unmodeled` whose
execution raises `NotImplementedError`, exactly as the base
`Instruction.execute` does for handlers the source leaves unimplemented
(operand parsing of those opcodes is not modelled; no theorem decodes
them). -/

inductive Instruction where
  | pushByte (byte_value : Nat)
  | add
  | returnValue
  | returnVoid
  | pushScope
  | findPropStrict (index : Nat)
  | getLex (index : Nat)
  | findProperty (index : Nat)
  | getProperty (index : Nat)
  | unmodeled (opcode : Nat)

/-- Python `read_instruction`: one opcode byte, then the operand fields
of the instruction.  Opcodes: 36 `pushbyte` (u8 operand), 160 `add`,
72 `returnvalue`, 71 `returnvoid`, 48 `pushscope`, 93 `findpropstrict`,
96 `getlex`, 94 `findproperty`, 102 `getproperty` (u30 operand each). -/
def read_instruction (r : MemoryViewReader) :
    Except PyExc (Instruction × MemoryViewReader) :=
  match r.read_u8 with
  | .error e => .error e
  | .ok (opcode, r1) =>
    if opcode = 36 then
      match r1.read_u8 with
      | .error e => .error e
      | .ok (b, r2) => .ok (.pushByte b, r2)
    else if opcode = 160 then .ok (.add, r1)
    else if opcode = 72 then .ok (.returnValue, r1)
    else if opcode = 71 then .ok (.returnVoid, r1)
    else if opcode = 48 then .ok (.pushScope, r1)
    else if opcode = 93 then
      match readU30 r1 with
      | .error e => .error e
      | .ok (i, r2) => .ok (.findPropStrict i, r2)
    else if opcode = 96 then
      match readU30 r1 with
      | .error e => .error e
      | .ok (i, r2) => .ok (.getLex i, r2)
    else if opcode = 94 then
      match readU30 r1 with
      | .error e => .error e
      | .ok (i, r2) => .ok (.findProperty i, r2)
    else if opcode = 102 then
      match readU30 r1 with
      | .error e => .error e
      | .ok (i, r2) => .ok (.getProperty i, r2)
    else .ok (.unmodeled opcode, r1)

/-- Python `+` on the operand shapes the embedded programs produce:
integer addition, string and list concatenation; any other pair raises
`TypeError`. -/
def pyAdd : ASValue → ASValue → Except PyExc ASValue
  | .vInt a, .vInt b => .ok (.vInt (a + b))
  | .vStr a, .vStr b => .ok (.vStr (a ++ b))
  | .vList a, .vList b => .ok (.vList (a ++ b))
  | _, _ => .error (.typeError "unsupported operand types for +")

/-- Per-opcode `execute(self, machine, environment)`.  The environment is
threaded explicitly; since Python mutates it in place, an exception also
carries the environment as mutated up to the raise.  The handlers are
translated one-to-one from `avm2/abc/instructions.py`:
* `PushByte.execute` appends the literal;
* `Add.execute` pops `value_2` then `value_1` and appends their sum;
* `ReturnValue.execute` pops the return value and raises
  `ASReturnException` carrying it;
* `ReturnVoid.execute` raises `ASReturnException(undefined)`;
* `PushScope.execute` pops, asserts the value is neither `None` nor
  `undefined`, and appends it to the scope stack;
* `FindPropStrict.execute` / `GetLex.execute` resolve over
  `[registers[0]] + scope_stack` and raise
  `NotImplementedError('ReferenceError')` on `KeyError`;
* `FindProperty.execute` resolves likewise but appends
  `machine.global_object` on `KeyError`;
* `GetProperty.execute` pops the object, resolves over `[object]`, and
  appends `undefined` on `KeyError`;
* `unmodeled` raises `NotImplementedError`, as the base class does. -/
def Instruction.execute (machine : VirtualMachine) (env : MethodEnvironment) :
    Instruction → Except (PyExc × MethodEnvironment) MethodEnvironment
  | .pushByte b => .ok { env with operand_stack := env.operand_stack ++ [.vInt b] }
  | .add =>
    match pyPop env.operand_stack with
    | .error e => .error (e, env)
    | .ok (value_2, stack1) =>
      match pyPop stack1 with
      | .error e => .error (e, { env with operand_stack := stack1 })
      | .ok (value_1, stack2) =>
        match pyAdd value_1 value_2 with
        | .error e => .error (e, { env with operand_stack := stack2 })
        | .ok v => .ok { env with operand_stack := stack2 ++ [v] }
  | .returnValue =>
    match pyPop env.operand_stack with
    | .error e => .error (e, env)
    | .ok (v, stack1) =>
      .error (.asReturnException v, { env with operand_stack := stack1 })
  | .returnVoid => .error (.asReturnException .vUndefined, env)
  | .pushScope =>
    match pyPop env.operand_stack with
    | .error e => .error (e, env)
    | .ok (v, stack1) =>
      match v with
      | .vNone => .error (.assertionError, { env with operand_stack := stack1 })
      | .vUndefined => .error (.assertionError, { env with operand_stack := stack1 })
      | _ => .ok { env with operand_stack := stack1,
                            scope_stack := env.scope_stack ++ [v] }
  | .findPropStrict index =>
    match machine.multinames.get? index with
    | none => .error (.indexError, env)
    | some multiname =>
      match resolve_multiname_identifiers env.operand_stack multiname with
      | .error .keyError => .error (.notImplementedErr "ReferenceError", env)
      | .error e => .error (e, env)
      | .ok ((name, namespaces), stack1) =>
        let env1 := { env with operand_stack := stack1 }
        match env1.registers.get? 0 with
        | none => .error (.indexError, env1)
        | some r0 =>
          match resolve_multiname (r0 :: env1.scope_stack) name namespaces with
          | .error .keyError => .error (.notImplementedErr "ReferenceError", env1)
          | .error e => .error (e, env1)
          | .ok (parent, _, _) =>
            .ok { env1 with operand_stack := stack1 ++ [parent] }
  | .getLex index =>
    match machine.multinames.get? index with
    | none => .error (.indexError, env)
    | some multiname =>
      match resolve_multiname_identifiers env.operand_stack multiname with
      | .error .keyError => .error (.notImplementedErr "ReferenceError", env)
      | .error e => .error (e, env)
      | .ok ((name, namespaces), stack1) =>
        let env1 := { env with operand_stack := stack1 }
        match env1.registers.get? 0 with
        | none => .error (.indexError, env1)
        | some r0 =>
          match resolve_multiname (r0 :: env1.scope_stack) name namespaces with
          | .error .keyError => .error (.notImplementedErr "ReferenceError", env1)
          | .error e => .error (e, env1)
          | .ok (parent, name1, namespace1) =>
            match resolve_qname parent namespace1 name1 with
            | .error e => .error (e, env1)
            | .ok value => .ok { env1 with operand_stack := stack1 ++ [value] }
  | .findProperty index =>
    match machine.multinames.get? index with
    | none => .error (.indexError, env)
    | some multiname =>
      match resolve_multiname_identifiers env.operand_stack multiname with
      | .error .keyError =>
        .ok { env with operand_stack := env.operand_stack ++ [machine.global_object] }
      | .error e => .error (e, env)
      | .ok ((name, namespaces), stack1) =>
        let env1 := { env with operand_stack := stack1 }
        match env1.registers.get? 0 with
        | none => .error (.indexError, env1)
        | some r0 =>
          match resolve_multiname (r0 :: env1.scope_stack) name namespaces with
          | .error .keyError =>
            .ok { env1 with operand_stack := stack1 ++ [machine.global_object] }
          | .error e => .error (e, env1)
          | .ok (parent, _, _) =>
            .ok { env1 with operand_stack := stack1 ++ [parent] }
  | .getProperty index =>
    match machine.multinames.get? index with
    | none => .error (.indexError, env)
    | some multiname =>
      match resolve_multiname_identifiers env.operand_stack multiname with
      | .error .keyError =>
        .ok { env with operand_stack := env.operand_stack ++ [.vUndefined] }
      | .error e => .error (e, env)
      | .ok ((name, namespaces), stack1) =>
        match pyPop stack1 with
        | .error e => .error (e, { env with operand_stack := stack1 })
        | .ok (object, stack2) =>
          let env2 := { env with operand_stack := stack2 }
          match resolve_multiname [object] name namespaces with
          | .error .keyError =>
            .ok { env2 with operand_stack := stack2 ++ [.vUndefined] }
          | .error e => .error (e, env2)
          | .ok (parent, name1, namespace1) =>
            match resolve_qname parent namespace1 name1 with
            | .error e => .error (e, env2)
            | .ok value => .ok { env2 with operand_stack := stack2 ++ [value] }
  | .unmodeled _ => .error (.notImplementedErr "instruction", env)

/-! ## VM executor (`avm2/vm.py`) -/

/-- Python `get_optional_value`: `raise NotImplementedError('get_optional_value')`. -/
def get_optional_value (_option : ASOptionDetail) : Except PyExc ASValue :=
  .error (.notImplementedErr "get_optional_value")

/-- Python `registers[i] = v`: item assignment raises `IndexError` when
the index is out of range. -/
def pySetItem {α : Type} (l : List α) (i : Nat) (v : α) : Except PyExc (List α) :=
  if i < l.length then .ok (l.set i v) else .error .indexError

/-- Loop `for i in range(len(arguments) + 1, method_body.local_count)` of
`create_method_environment`.  The conditional expression evaluates
`i <= len(method.options)` first, so when `options` is `None` the loop
body raises `TypeError` (`len(None)`); when the position has an optional
default, `get_optional_value` is called (and raises
`NotImplementedError`); otherwise the register is set to `undefined`. -/
def fillRegisters (options : Option (List ASOptionDetail)) :
    List Nat → List ASValue → Except PyExc (List ASValue)
  | [], regs => .ok regs
  | i :: rest, regs =>
    match options with
    | none => .error (.typeError "object of type NoneType has no len()")
    | some opts =>
      if i ≤ opts.length then
        match get_optional_value (opts.getD (i - 1) ⟨0, 0⟩) with
        | .error e => .error e
        | .ok v => fillRegisters options rest (regs.set i v)
      else fillRegisters options rest (regs.set i .vUndefined)

/-- Python `VirtualMachine.create_method_environment`, step for step:
`local_count` registers filled with `...`; `registers[0] = this`
(`IndexError` when `local_count` is 0); `assert len(arguments) <=
method.param_count`; the slice assignment `registers[1:len(arguments)+1]
= arguments` (which can change the list length); `assert not
method.options or len(method.options) <= method.param_count`; the
undefined/optional fill loop; the `NEED_REST` / `NEED_ARGUMENTS` writes
to `registers[method.param_count + 1]`; and the final `assert
len(registers) == method_body.local_count`. -/
def create_method_environment (method : ASMethod) (method_body : ASMethodBody)
    (this : ASValue) (arguments : List ASValue) :
    Except PyExc MethodEnvironment :=
  let k := arguments.length
  let registers0 := List.replicate method_body.local_count ASValue.vEllipsis
  if method_body.local_count = 0 then .error .indexError else
  let registers1 := registers0.set 0 this
  if ¬ k ≤ method.param_count then .error .assertionError else
  let registers2 := registers1.take 1 ++ arguments ++ registers1.drop (k + 1)
  if (match method.options with
      | none => false
      | some opts => !opts.isEmpty && decide (method.param_count < opts.length)) then
    .error .assertionError
  else
    match fillRegisters method.options
        (List.range' (k + 1) (method_body.local_count - (k + 1))) registers2 with
    | .error e => .error e
    | .ok registers3 =>
      match (if method.flags &&& NEED_REST ≠ 0 then
               pySetItem registers3 (method.param_count + 1)
                 (.vList (arguments.drop method.param_count))
             else .ok registers3) with
      | .error e => .error e
      | .ok registers4 =>
        match (if method.flags &&& NEED_ARGUMENTS ≠ 0 then
                 pySetItem registers4 (method.param_count + 1) (.vList arguments)
               else .ok registers4) with
        | .error e => .error e
        | .ok registers5 =>
          if registers5.length = method_body.local_count then
            .ok { registers := registers5 }
          else .error .assertionError

/-- Python `link_method_bodies`: the dict comprehension
`{method_body.method: index for index, method_body in enumerate(...)}`. -/
def link_method_bodies (bodies : List ASMethodBody) : List (Nat × Nat) :=
  bodies.enum.map (fun p => (p.2.method, p.1))

/-- Python dict lookup over the comprehension result: for duplicate keys
the later entry wins; `KeyError` when the key is absent. -/
def dictLookupLast (pairs : List (Nat × Nat)) (k : Nat) : Except PyExc Nat :=
  match (pairs.filter (fun p => p.1 = k)).getLast? with
  | none => .error .keyError
  | some p => .ok p.2

/-- Outcome of the dispatch loop: the loop of `execute_code` is
`while True`, so it either propagates an exception (carrying the
environment as mutated so far) or is still running when the fuel runs
out; it never returns normally. -/
inductive ExecOutcome where
  | raised (e : PyExc) (env : MethodEnvironment)
  | fuelOut (r : MemoryViewReader) (env : MethodEnvironment)

/-- Python `VirtualMachine.execute_code`: `reader = MemoryViewReader(code)`
then `while True: read_instruction(reader).execute(self, environment)`.
There is no `try`/`except` around the dispatch: any exception an
instruction raises — including the `ASReturnException` and
`ASJumpException` control-transfer signals — propagates out of the loop. -/
def execute_code (machine : VirtualMachine) :
    Nat → MemoryViewReader → MethodEnvironment → ExecOutcome
  | 0, r, env => .fuelOut r env
  | fuel + 1, r, env =>
    match read_instruction r with
    | .error e => .raised e env
    | .ok (instruction, r1) =>
      match instruction.execute machine env with
      | .error (e, env1) => .raised e env1
      | .ok env1 => execute_code machine fuel r1 env1

/-- Placeholder environment for exceptions raised before the method
environment exists (list indexing and environment construction). -/
def noEnv : MethodEnvironment := { registers := [] }

/-- Python `VirtualMachine.execute_method_body`: look up the body and its
method record, build the environment, run the code.  Exceptions from any
stage propagate to the caller. -/
def execute_method_body (machine : VirtualMachine) (fuel : Nat) (index : Nat)
    (this : ASValue) (arguments : List ASValue) : ExecOutcome :=
  match machine.method_bodies.get? index with
  | none => .raised .indexError noEnv
  | some method_body =>
    match machine.methods.get? method_body.method with
    | none => .raised .indexError noEnv
    | some method =>
      match create_method_environment method method_body this arguments with
      | .error e => .raised e noEnv
      | .ok env => execute_code machine fuel ⟨method_body.code, 0⟩ env

/-- Python `VirtualMachine.execute_method`:
`execute_method_body(self.method_to_body[index], ...)`. -/
def execute_method (machine : VirtualMachine) (fuel : Nat) (index : Nat)
    (this : ASValue) (arguments : List ASValue) : ExecOutcome :=
  match dictLookupLast (link_method_bodies machine.method_bodies) index with
  | .error e => .raised e noEnv
  | .ok bodyIndex => execute_method_body machine fuel bodyIndex this arguments

/-- Python `VirtualMachine.execute_script`:
`self.execute_method(script.init, this=...)` — the receiver passed is
the `Ellipsis` literal (`...`), flagged `FIXME` in the source. -/
def execute_script (machine : VirtualMachine) (fuel : Nat) (script : ASScript) :
    ExecOutcome :=
  execute_method machine fuel script.init .vEllipsis []

/-- Python `VirtualMachine.execute_entry_point`:
`self.execute_script(self.abc_file.scripts[-1])` — the last script;
`IndexError` when there are none. -/
def execute_entry_point (machine : VirtualMachine) (fuel : Nat) : ExecOutcome :=
  match machine.scripts.getLast? with
  | none => .raised .indexError noEnv
  | some script => execute_script machine fuel script

/-- Accumulation of `n` seven-bit groups taken from `buffer` starting at
`pos`, low to high — `value |= (byte & 0x7F) << 7*j` for `j = 0 .. n-1`,
stated independently of the reader loop for comparison with it. -/
def varintValue (buffer : List Nat) (pos : Nat) : Nat → Nat
  | 0 => 0
  | n + 1 => varintValue buffer pos n ||| ((buffer.getD (pos + n) 0 &&& 0x7F) <<< (7 * n))

/-- Iterate the `pushscope` handler `k` times (each iteration pops one
operand and pushes it onto the scope stack): an execution whose scope
stack is populated only by `pushscope`. -/
def runPushScopes (machine : VirtualMachine) :
    Nat → MethodEnvironment → Except (PyExc × MethodEnvironment) MethodEnvironment
  | 0, env => .ok env
  | k + 1, env =>
    match Instruction.pushScope.execute machine env with
    | .error e => .error e
    | .ok env1 => runPushScopes machine k env1

/-! # Theorems settling the claims -/

theorem pyPop_eq_append {α : Type} (l rest : List α) (v : α)
    (h : pyPop l = .ok (v, rest)) : l = rest ++ [v] := by
  induction l using List.reverseRecOn with
  | nil => simp [pyPop] at h
  | append_singleton as a ih =>
    simp only [pyPop, List.getLast?_concat, List.dropLast_concat,
      Except.ok.injEq, Prod.mk.injEq] at h
    obtain ⟨hv, hrest⟩ := h
    subst hv; subst hrest; rfl

/-- C1: the `returnvalue` handler does pop 7 as the return value and raise
the return signal, but the executor's dispatch loop (`execute_code`,
`while True` with no handler) does NOT handle the control-transfer
signal: executing `pushbyte 3; pushbyte 4; add; returnvalue` makes the
raw `ASReturnException(7)` escape `execute_method` uncaught instead of
delivering the value 7 to its caller as a return value. -/
theorem claim1_return_signal_escapes_executor :
    execute_method
      { methods := [{ param_count := 0, flags := 0, options := none }],
        method_bodies := [{ method := 0, local_count := 1,
                            code := [36, 3, 36, 4, 160, 72] }],
        scripts := [], multinames := [], global_object := .obj none [] }
      10 0 .vEllipsis []
      = .raised (.asReturnException (.vInt 7)) { registers := [.vEllipsis] } := by
  rfl

/-- C2: environment construction for a method without optional defaults
(`options = None`, `param_count = 0`, no flags) and a body with
`local_count = 2` and no supplied arguments raises `TypeError` — the
padding loop evaluates `len(method.options)` on `None` — instead of
producing registers `[this, undefined]` as the claim states. -/
theorem claim2_register_padding_raises_type_error :
    create_method_environment { param_count := 0, flags := 0, options := none }
      { method := 0, local_count := 2, code := [] } (.obj none []) []
      = .error (.typeError "object of type NoneType has no len()") := by
  rfl

/-- C3: when multiname resolution finds no matching binding on any
searched object, `findproperty` does push the global object and
`getproperty` does push `undefined`, but `findpropstrict` and `getlex`
raise the host `NotImplementedError('ReferenceError')` — a plain Python
exception, not an AVM2 `ReferenceError` raised into the interpreter's
exception machinery (the dispatch loop has no exception handling at
all). -/
theorem claim3_lookup_not_found_behaviour :
    let m : VirtualMachine :=
      { methods := [], method_bodies := [], scripts := [],
        multinames := [.qName "flash" "x"],
        global_object := .obj none [] }
    let env : MethodEnvironment := { registers := [.obj none []] }
    ((Instruction.findPropStrict 0).execute m env
        = .error (.notImplementedErr "ReferenceError", env))
    ∧ ((Instruction.getLex 0).execute m env
        = .error (.notImplementedErr "ReferenceError", env))
    ∧ ((Instruction.findProperty 0).execute m env
        = .ok { env with operand_stack := [.obj none []] })
    ∧ ((Instruction.getProperty 0).execute m
          { env with operand_stack := [.obj none []] }
        = .ok { env with operand_stack := [.vUndefined] }) :=
  ⟨rfl, rfl, rfl, rfl⟩

/-- C7: `execute_entry_point` does run the initializer of the last
script, but `execute_script` passes the `Ellipsis` placeholder (`...`)
as `this` — register 0 of the invoked frame holds `Ellipsis`, not the
global object (the `VirtualMachine` of `vm.py` defines no global
object at all). -/
theorem claim7_entry_point_receiver_is_ellipsis :
    let m : VirtualMachine :=
      { methods := [{ param_count := 0, flags := 0, options := none }],
        method_bodies := [{ method := 0, local_count := 1, code := [71] }],
        scripts := [{ init := 0 }], multinames := [],
        global_object := .obj none [] }
    (execute_entry_point m 10
      = .raised (.asReturnException .vUndefined) { registers := [.vEllipsis] })
    ∧ ASValue.vEllipsis ≠ m.global_object :=
  ⟨rfl, by simp⟩

/-- C8 counterexample: both reads the claim requires to fail succeed —
`read` past the end of an empty buffer returns an empty slice with no
`Truncated` error, and a varint of five continuation bytes is accepted
with no `MalformedVarInt` error (value 0, five bytes consumed). -/
theorem claim8_no_failure_counterexample :
    MemoryViewReader.read ⟨[], 0⟩ 1 = .ok ([], ⟨[], 0⟩)
    ∧ MemoryViewReader.read_int ⟨[0x80, 0x80, 0x80, 0x80, 0x80], 0⟩ true
        = .ok (0, ⟨[0x80, 0x80, 0x80, 0x80, 0x80], 5⟩) :=
  ⟨rfl, rfl⟩

theorem read_array_with_default_head {α : Type}
    {f : MemoryViewReader → Except PyExc (α × MemoryViewReader)} {d : α}
    {r : MemoryViewReader} {l : List α} {r1 : MemoryViewReader}
    (h : read_array_with_default f d r = .ok (l, r1)) : l.get? 0 = some d := by
  unfold read_array_with_default at h
  cases h1 : readU30 r with
  | error e => rw [h1] at h; simp at h
  | ok p =>
    obtain ⟨n, rA⟩ := p
    rw [h1] at h
    dsimp only at h
    cases h2 : readN f (n - 1) rA with
    | error e => rw [h2] at h; simp at h
    | ok q =>
      obtain ⟨as, rB⟩ := q
      rw [h2] at h
      dsimp only at h
      simp only [Except.ok.injEq, Prod.mk.injEq] at h
      rw [← h.1]; rfl

/-- C5: for every input on which the constant-pool decoder succeeds,
index 0 of each pool holds its defined sentinel default: signed and
unsigned integers 0, doubles `math.nan`, and the `None` ("any"/null)
sentinel for the strings, namespaces, namespace-sets and multinames
pools. -/
theorem claim5_constant_pool_sentinels (r : MemoryViewReader)
    (cp : ASConstantPool) (r1 : MemoryViewReader)
    (h : ASConstantPool.read r = .ok (cp, r1)) :
    cp.integers.get? 0 = some 0 ∧
    cp.unsigned_integers.get? 0 = some 0 ∧
    (cp.doubles.get? 0 = some nanBits ∧ isNaN64 nanBits = true) ∧
    cp.strings.get? 0 = some none ∧
    cp.namespaces.get? 0 = some none ∧
    cp.ns_sets.get? 0 = some none ∧
    cp.multinames.get? 0 = some none := by
  unfold ASConstantPool.read at h
  cases h1 : read_array_with_default (fun r => r.read_int false) 0 r with
  | error e => rw [h1] at h; simp at h
  | ok p1 =>
  obtain ⟨ints, rA⟩ := p1
  rw [h1] at h
  dsimp only at h
  cases h2 : read_array_with_default (fun r => r.read_int true) 0 rA with
  | error e => rw [h2] at h; simp at h
  | ok p2 =>
  obtain ⟨uints, rB⟩ := p2
  rw [h2] at h
  dsimp only at h
  cases h3 : read_array_with_default MemoryViewReader.read_d64 nanBits rB with
  | error e => rw [h3] at h; simp at h
  | ok p3 =>
  obtain ⟨dbls, rC⟩ := p3
  rw [h3] at h
  dsimp only at h
  cases h4 : read_array_with_default (readSome MemoryViewReader.read_string) none rC with
  | error e => rw [h4] at h; simp at h
  | ok p4 =>
  obtain ⟨strs, rD⟩ := p4
  rw [h4] at h
  dsimp only at h
  cases h5 : read_array_with_default (readSome ASNamespace.read) none rD with
  | error e => rw [h5] at h; simp at h
  | ok p5 =>
  obtain ⟨nss, rE⟩ := p5
  rw [h5] at h
  dsimp only at h
  cases h6 : read_array_with_default (readSome ASNamespaceSet.read) none rE with
  | error e => rw [h6] at h; simp at h
  | ok p6 =>
  obtain ⟨sets, rF⟩ := p6
  rw [h6] at h
  dsimp only at h
  cases h7 : read_array_with_default (readSome ASMultiname.read) none rF with
  | error e => rw [h7] at h; simp at h
  | ok p7 =>
  obtain ⟨mns, rG⟩ := p7
  rw [h7] at h
  dsimp only at h
  simp only [Except.ok.injEq, Prod.mk.injEq] at h
  obtain ⟨hcp, _⟩ := h
  subst hcp
  exact ⟨read_array_with_default_head h1, read_array_with_default_head h2,
    ⟨read_array_with_default_head h3, rfl⟩, read_array_with_default_head h4,
    read_array_with_default_head h5, read_array_with_default_head h6,
    read_array_with_default_head h7⟩

/-- C5 witness: the minimal ABC constant pool (seven zero counts) decodes
successfully, and its pools are exactly the sentinel singletons. -/
theorem claim5_constant_pool_sentinels_witness :
    ASConstantPool.read ⟨[0, 0, 0, 0, 0, 0, 0], 0⟩
        = .ok (⟨[0], [0], [nanBits], [none], [none], [none], [none]⟩,
               ⟨[0, 0, 0, 0, 0, 0, 0], 7⟩)
    ∧ (([0] : List Int).get? 0 = some 0 ∧
       ([0] : List Int).get? 0 = some 0 ∧
       (([nanBits] : List Nat).get? 0 = some nanBits ∧ isNaN64 nanBits = true) ∧
       ([none] : List (Option String)).get? 0 = some none ∧
       ([none] : List (Option ASNamespace)).get? 0 = some none ∧
       ([none] : List (Option ASNamespaceSet)).get? 0 = some none ∧
       ([none] : List (Option ASMultiname)).get? 0 = some none) :=
  ⟨rfl, claim5_constant_pool_sentinels ⟨[0, 0, 0, 0, 0, 0, 0], 0⟩
     ⟨[0], [0], [nanBits], [none], [none], [none], [none]⟩
     ⟨[0, 0, 0, 0, 0, 0, 0], 7⟩ rfl⟩

/-- C6 counterexample: on an empty `ASArray` with an empty property map,
`get_property` with the integer name 0 raises `KeyError` — it does not
return `undefined` as the claim states. -/
theorem claim6_array_out_of_range_counterexample :
    get_property (.arrObj [] []) (.pStr "ns") (.pInt 0) = .error .keyError
    ∧ get_property (.arrObj [] []) (.pStr "ns") (.pInt 0)
        ≠ .ok ASValue.vUndefined :=
  ⟨rfl, by simp [get_property, dictGet]⟩

/-- C6 amended: a string object yields the one-character string at any
in-range integer index; an array object yields the element at any
in-range integer index; at an out-of-range integer index the array
lookup falls through to the object's own property dictionary and raises
`KeyError` when no such property exists (rather than returning
`undefined`). -/
theorem claim6_get_property_indexing (props : List ((PKey × PKey) × ASValue))
    (xs : List ASValue) (s : String) (ns : PKey) (i : Int) :
    (0 ≤ i → i < (s.length : Int) → ∃ c, s.data.get? i.toNat = some c ∧
      get_property (.strObj s) ns (.pInt i) = .ok (.vStr (String.mk [c])) ∧
      (String.mk [c]).length = 1)
    ∧ (0 ≤ i → i < (xs.length : Int) → ∃ v, xs.get? i.toNat = some v ∧
      get_property (.arrObj props xs) ns (.pInt i) = .ok v)
    ∧ (¬ (0 ≤ i ∧ i < (xs.length : Int)) → props.lookup (ns, .pInt i) = none →
      get_property (.arrObj props xs) ns (.pInt i) = .error .keyError) := by
  refine ⟨?_, ?_, ?_⟩
  · intro h0 h1
    cases hg : s.data.get? i.toNat with
    | none =>
      rw [List.get?_eq_none] at hg
      have : (s.length : Int) = (s.data.length : Int) := by rfl
      omega
    | some c =>
      refine ⟨c, rfl, ?_, rfl⟩
      simp only [get_property]
      rw [if_pos ⟨h0, h1⟩, hg]
  · intro h0 h1
    cases hg : xs.get? i.toNat with
    | none => rw [List.get?_eq_none] at hg; omega
    | some v =>
      refine ⟨v, rfl, ?_⟩
      simp only [get_property]
      rw [if_pos ⟨h0, h1⟩, hg]
  · intro hnr hlk
    simp only [get_property]
    rw [if_neg hnr]
    simp [dictGet, hlk]

/-- C6 amended, witness: the second character of `"hi"`, the only element
of a one-element array, and the `KeyError` of an out-of-range index. -/
theorem claim6_get_property_indexing_witness :
    (∃ c, "hi".data.get? 1 = some c ∧
      get_property (.strObj "hi") (.pStr "n") (.pInt 1) = .ok (.vStr (String.mk [c])) ∧
      (String.mk [c]).length = 1)
    ∧ (∃ v, [ASValue.vInt 9].get? 0 = some v ∧
      get_property (.arrObj [] [.vInt 9]) (.pStr "n") (.pInt 0) = .ok v)
    ∧ get_property (.arrObj [] [.vInt 9]) (.pStr "n") (.pInt 5) = .error .keyError :=
  ⟨(claim6_get_property_indexing [] [.vInt 9] "hi" (.pStr "n") 1).1
      (by decide) (by decide),
   (claim6_get_property_indexing [] [.vInt 9] "hi" (.pStr "n") 0).2.1
      (by decide) (by decide),
   (claim6_get_property_indexing [] [.vInt 9] "hi" (.pStr "n") 5).2.2
      (by decide) rfl⟩

theorem pushScope_ok_spec (m : VirtualMachine) (env env1 : MethodEnvironment)
    (h : Instruction.pushScope.execute m env = .ok env1) :
    ∃ v rest, env.operand_stack = rest ++ [v] ∧
      v ≠ ASValue.vNone ∧ v ≠ ASValue.vUndefined ∧
      env1 = { env with operand_stack := rest, scope_stack := env.scope_stack ++ [v] } := by
  simp only [Instruction.execute] at h
  cases hp : pyPop env.operand_stack with
  | error e => rw [hp] at h; simp at h
  | ok p =>
    obtain ⟨v, stack1⟩ := p
    rw [hp] at h
    have hap := pyPop_eq_append _ _ _ hp
    cases v
    case vNone => simp at h
    case vUndefined => simp at h
    all_goals
      (dsimp only at h
       rw [Except.ok.injEq] at h
       exact ⟨_, stack1, hap, by simp, by simp, h.symm⟩)

theorem runPushScopes_invariant (m : VirtualMachine) (k : Nat)
    (env env1 : MethodEnvironment)
    (h : runPushScopes m k env = .ok env1)
    (hinv : ∀ v ∈ env.scope_stack, v ≠ ASValue.vNone ∧ v ≠ ASValue.vUndefined) :
    ∀ v ∈ env1.scope_stack, v ≠ ASValue.vNone ∧ v ≠ ASValue.vUndefined := by
  induction k generalizing env with
  | zero =>
    simp only [runPushScopes, Except.ok.injEq] at h
    exact h ▸ hinv
  | succ n ih =>
    simp only [runPushScopes] at h
    cases hs : Instruction.pushScope.execute m env with
    | error e => rw [hs] at h; simp at h
    | ok env2 =>
      rw [hs] at h
      obtain ⟨v, rest, _, hvn, hvu, henv2⟩ := pushScope_ok_spec m env env2 hs
      refine ih env2 h ?_
      intro w hw
      have hscope : env2.scope_stack = env.scope_stack ++ [v] := by rw [henv2]
      rw [hscope] at hw
      rcases List.mem_append.mp hw with hw1 | hw1
      · exact hinv w hw1
      · rw [List.mem_singleton] at hw1
        subst hw1
        exact ⟨hvn, hvu⟩

/-- C10: the `pushscope` handler pops the operand-stack top, asserts it
is neither `None` (null) nor `undefined`, and appends it to the scope
stack; consequently, in every execution whose scope stack is populated
only by `pushscope` (any number of successful `pushscope` steps from an
empty scope stack), the scope stack never contains null or undefined. -/
theorem claim10_pushscope_scope_stack_invariant :
    (∀ (m : VirtualMachine) (env env1 : MethodEnvironment),
      Instruction.pushScope.execute m env = .ok env1 →
      ∃ v rest, env.operand_stack = rest ++ [v] ∧
        v ≠ ASValue.vNone ∧ v ≠ ASValue.vUndefined ∧
        env1 = { env with operand_stack := rest, scope_stack := env.scope_stack ++ [v] })
    ∧ (∀ (m : VirtualMachine) (k : Nat) (env env1 : MethodEnvironment),
      runPushScopes m k env = .ok env1 →
      env.scope_stack = [] →
      ∀ v ∈ env1.scope_stack, v ≠ ASValue.vNone ∧ v ≠ ASValue.vUndefined) :=
  ⟨pushScope_ok_spec,
   fun m k env env1 h hempty =>
     runPushScopes_invariant m k env env1 h (by rw [hempty]; simp)⟩

/-- C10 witness: two `pushscope` steps from an empty scope stack move the
integers 2 and 1 onto the scope stack, which then contains neither null
nor undefined. -/
theorem claim10_pushscope_scope_stack_invariant_witness :
    (∃ v rest, [ASValue.vInt 3] = rest ++ [v] ∧
      v ≠ ASValue.vNone ∧ v ≠ ASValue.vUndefined ∧
      ({ registers := [], operand_stack := [],
         scope_stack := [ASValue.vInt 3] } : MethodEnvironment)
        = { registers := [], operand_stack := rest,
            scope_stack := ([] : List ASValue) ++ [v] })
    ∧ (∀ v ∈ ({ registers := [], operand_stack := [],
                scope_stack := [ASValue.vInt 2, ASValue.vInt 1] }
                : MethodEnvironment).scope_stack,
        v ≠ ASValue.vNone ∧ v ≠ ASValue.vUndefined) :=
  ⟨claim10_pushscope_scope_stack_invariant.1
     { methods := [], method_bodies := [], scripts := [], multinames := [],
       global_object := .obj none [] }
     { registers := [], operand_stack := [.vInt 3] }
     { registers := [], operand_stack := [], scope_stack := [.vInt 3] } rfl,
   claim10_pushscope_scope_stack_invariant.2
     { methods := [], method_bodies := [], scripts := [], multinames := [],
       global_object := .obj none [] }
     2 { registers := [], operand_stack := [.vInt 1, .vInt 2] }
     { registers := [], operand_stack := [],
       scope_stack := [.vInt 2, .vInt 1] } rfl rfl⟩

theorem extend_sign_eq (n v : Nat) (hn : 1 ≤ n) (hv : v < 2 ^ n) :
    MemoryViewReader.extend_sign v (2 ^ (n - 1)) =
      (v : Int) - (if 2 ^ (n - 1) ≤ v then (2 ^ n : Int) else 0) := by
  have hsplit : 2 ^ n = 2 ^ (n - 1) * 2 := by
    conv_lhs => rw [show n = (n - 1) + 1 by omega]
    rw [pow_succ]
  have h2n : (2 ^ n : Int) = ((2 ^ (n - 1) : Nat) : Int) * 2 := by
    rw [show ((2 ^ (n - 1) : Nat) : Int) = (2 ^ (n - 1) : Int) by push_cast; ring]
    rw [show ((2 : Int) ^ n) = ((2 ^ n : Nat) : Int) by push_cast; ring]
    exact_mod_cast hsplit
  have hpos : 0 < 2 ^ (n - 1) := Nat.pos_pow_of_pos _ (by omega)
  rw [hsplit] at hv
  unfold MemoryViewReader.extend_sign
  rw [Nat.and_pow_two_sub_one_eq_mod, Nat.and_two_pow, Nat.testBit_to_div_mod, h2n]
  generalize hP : (2 : Nat) ^ (n - 1) = P at hv hpos ⊢
  have hdm := Nat.div_add_mod v P
  have hm : v % P < P := Nat.mod_lt _ hpos
  by_cases hcase : P ≤ v
  · have h0 : v / P = 1 := by
      apply Nat.div_eq_of_lt_le (by omega) (by omega)
    rw [h0] at hdm ⊢
    rw [show decide ((1 : Nat) % 2 = 1) = true by decide]
    simp only [Nat.mul_one] at hdm
    rw [if_pos hcase]
    simp only [Bool.toNat_true, Nat.one_mul]
    omega
  · have h0 : v / P = 0 := Nat.div_eq_of_lt (Nat.lt_of_not_le hcase)
    rw [h0] at hdm ⊢
    rw [show decide ((0 : Nat) % 2 = 1) = false by decide]
    simp only [Nat.mul_zero, Nat.zero_add] at hdm
    rw [if_neg hcase]
    simp only [Bool.toNat_false, Nat.zero_mul, Nat.cast_zero, sub_zero, hdm]

/-- C9: for every bit width `n ≥ 1` and value below `2^n`,
`extend_sign(value, 2^(n-1))` is the unique integer in
`[-2^(n-1), 2^(n-1))` congruent to the value modulo `2^n`; and whenever
`read_s24` succeeds on a byte buffer, its result is exactly that signed
value (with `n = 24`) of the 24-bit little-endian word formed by the
three consumed bytes. -/
theorem claim9_extend_sign_unique_representative :
    (∀ (n v : Nat), 1 ≤ n → v < 2 ^ n →
      (-(2 ^ (n - 1) : Int) ≤ MemoryViewReader.extend_sign v (2 ^ (n - 1))
        ∧ MemoryViewReader.extend_sign v (2 ^ (n - 1)) < 2 ^ (n - 1)
        ∧ (2 ^ n : Int) ∣ ((v : Int) - MemoryViewReader.extend_sign v (2 ^ (n - 1)))
        ∧ ∀ z : Int, -(2 ^ (n - 1) : Int) ≤ z → z < 2 ^ (n - 1) →
            (2 ^ n : Int) ∣ ((v : Int) - z) →
            z = MemoryViewReader.extend_sign v (2 ^ (n - 1))))
    ∧ (∀ (r : MemoryViewReader) (v : Int) (r1 : MemoryViewReader),
        (∀ b ∈ r.buffer, b < 256) →
        r.read_s24 = .ok (v, r1) →
        ∃ b0 b1 b2,
          r.buffer.get? r.position = some b0 ∧
          r.buffer.get? (r.position + 1) = some b1 ∧
          r.buffer.get? (r.position + 2) = some b2 ∧
          v = MemoryViewReader.extend_sign (b0 + 256 * b1 + 65536 * b2) 0x800000 ∧
          -(2 ^ 23 : Int) ≤ v ∧ v < 2 ^ 23 ∧
          (2 ^ 24 : Int) ∣ (((b0 + 256 * b1 + 65536 * b2 : Nat) : Int) - v)) := by
  have main : ∀ (n v : Nat), 1 ≤ n → v < 2 ^ n →
      (-(2 ^ (n - 1) : Int) ≤ MemoryViewReader.extend_sign v (2 ^ (n - 1))
        ∧ MemoryViewReader.extend_sign v (2 ^ (n - 1)) < 2 ^ (n - 1)
        ∧ (2 ^ n : Int) ∣ ((v : Int) - MemoryViewReader.extend_sign v (2 ^ (n - 1)))
        ∧ ∀ z : Int, -(2 ^ (n - 1) : Int) ≤ z → z < 2 ^ (n - 1) →
            (2 ^ n : Int) ∣ ((v : Int) - z) →
            z = MemoryViewReader.extend_sign v (2 ^ (n - 1))) := by
    intro n v hn hv
    rw [extend_sign_eq n v hn hv]
    have hP : (0 : Int) < 2 ^ (n - 1) := by positivity
    have hsplit : (2 ^ n : Int) = 2 ^ (n - 1) * 2 := by
      conv_lhs => rw [show n = (n - 1) + 1 by omega]
      rw [pow_succ]
    have hvi : (v : Int) < 2 ^ n := by exact_mod_cast hv
    have hvnn : (0 : Int) ≤ (v : Int) := Int.natCast_nonneg v
    have hcast : ((2 ^ (n - 1) : Nat) : Int) = (2 ^ (n - 1) : Int) := by push_cast; ring
    by_cases hcase : 2 ^ (n - 1) ≤ v
    · rw [if_pos hcase]
      have hci : (2 ^ (n - 1) : Int) ≤ (v : Int) := by
        rw [← hcast]; exact_mod_cast hcase
      refine ⟨by omega, by omega, ⟨1, by ring⟩, ?_⟩
      intro z hz1 hz2 hdvd
      have hd2 : (2 ^ n : Int) ∣ (z - ((v : Int) - 2 ^ n)) := by
        have : z - ((v : Int) - 2 ^ n) = -((v : Int) - z) + 2 ^ n := by ring
        rw [this]
        exact dvd_add (dvd_neg.mpr hdvd) dvd_rfl
      have habs : |z - ((v : Int) - 2 ^ n)| < 2 ^ n := by
        rw [abs_lt]; constructor <;> omega
      have := Int.eq_zero_of_abs_lt_dvd hd2 habs
      omega
    · rw [if_neg hcase]
      have hci : (v : Int) < (2 ^ (n - 1) : Int) := by
        rw [← hcast]; exact_mod_cast Nat.lt_of_not_le hcase
      refine ⟨by omega, by omega, by simp, ?_⟩
      intro z hz1 hz2 hdvd
      have habs : |(v : Int) - z| < 2 ^ n := by
        rw [abs_lt]; constructor <;> omega
      have := Int.eq_zero_of_abs_lt_dvd hdvd habs
      omega
  refine ⟨main, ?_⟩
  intro r v r1 hbytes h
  unfold MemoryViewReader.read_s24 MemoryViewReader.read at h
  dsimp only at h
  match hm : (r.buffer.drop r.position).take 3 with
  | [b0, b1, b2] =>
    rw [hm] at h
    dsimp only at h
    simp only [Except.ok.injEq, Prod.mk.injEq] at h
    obtain ⟨hv, _⟩ := h
    have hget : ∀ j, j < 3 → r.buffer.get? (r.position + j) = [b0, b1, b2].get? j := by
      intro j hj
      rw [← hm, List.get?_take hj, List.get?_drop]
    have hg0 := hget 0 (by omega)
    have hg1 := hget 1 (by omega)
    have hg2 := hget 2 (by omega)
    simp only [List.get?, Nat.add_zero] at hg0 hg1 hg2
    have hb0 : b0 < 256 := hbytes b0 (List.get?_mem hg0)
    have hb1 : b1 < 256 := hbytes b1 (List.get?_mem hg1)
    have hb2 : b2 < 256 := hbytes b2 (List.get?_mem hg2)
    refine ⟨b0, b1, b2, hg0, hg1, hg2, hv.symm, ?_⟩
    have hlt : b0 + 256 * b1 + 65536 * b2 < 2 ^ 24 := by omega
    have hmain := main 24 (b0 + 256 * b1 + 65536 * b2) (by omega) hlt
    rw [show (2 : Nat) ^ (24 - 1) = 0x800000 by norm_num] at hmain
    rw [hv.symm]
    refine ⟨?_, ?_, ?_⟩
    · have := hmain.1
      norm_num at this ⊢
      exact this
    · have := hmain.2.1
      norm_num at this ⊢
      exact this
    · have := hmain.2.2.1
      norm_num at this ⊢
      exact this
  | [] => rw [hm] at h; dsimp only at h; simp at h
  | [_] => rw [hm] at h; dsimp only at h; simp at h
  | [_, _] => rw [hm] at h; dsimp only at h; simp at h
  | _ :: _ :: _ :: _ :: _ => rw [hm] at h; dsimp only at h; simp at h

/-- C9 witness: width 8 at value 200 (`extend_sign` yields -56, the
unique representative of 200 modulo 256 in `[-128, 128)`), and
`read_s24` on the bytes `FF FF FF` yielding -1. -/
theorem claim9_extend_sign_unique_representative_witness :
    (-(2 ^ 7 : Int) ≤ MemoryViewReader.extend_sign 200 (2 ^ 7)
      ∧ MemoryViewReader.extend_sign 200 (2 ^ 7) < 2 ^ 7
      ∧ (2 ^ 8 : Int) ∣ (((200 : Nat) : Int) - MemoryViewReader.extend_sign 200 (2 ^ 7))
      ∧ ∀ z : Int, -(2 ^ 7 : Int) ≤ z → z < 2 ^ 7 →
          (2 ^ 8 : Int) ∣ (((200 : Nat) : Int) - z) →
          z = MemoryViewReader.extend_sign 200 (2 ^ 7))
    ∧ (∃ b0 b1 b2,
        ([255, 255, 255] : List Nat).get? 0 = some b0 ∧
        ([255, 255, 255] : List Nat).get? (0 + 1) = some b1 ∧
        ([255, 255, 255] : List Nat).get? (0 + 2) = some b2 ∧
        (-1 : Int) = MemoryViewReader.extend_sign (b0 + 256 * b1 + 65536 * b2) 0x800000 ∧
        -(2 ^ 23 : Int) ≤ (-1 : Int) ∧ (-1 : Int) < 2 ^ 23 ∧
        (2 ^ 24 : Int) ∣ (((b0 + 256 * b1 + 65536 * b2 : Nat) : Int) - (-1 : Int))) :=
  ⟨claim9_extend_sign_unique_representative.1 8 200 (by norm_num) (by norm_num),
   claim9_extend_sign_unique_representative.2 ⟨[255, 255, 255], 0⟩ (-1)
     ⟨[255, 255, 255], 3⟩ (by decide) rfl⟩

theorem read_u8_ok {r : MemoryViewReader} {b : Nat} {r1 : MemoryViewReader}
    (h : r.read_u8 = .ok (b, r1)) :
    r.buffer.get? r.position = some b ∧ r1 = ⟨r.buffer, r.position + 1⟩ := by
  unfold MemoryViewReader.read_u8 at h
  cases hg : r.buffer.get? r.position with
  | none => rw [hg] at h; simp at h
  | some b0 =>
    rw [hg] at h
    dsimp only at h
    simp only [Except.ok.injEq, Prod.mk.injEq] at h
    obtain ⟨hb, hr⟩ := h
    subst hb
    exact ⟨rfl, hr.symm⟩

theorem read_u8_of_get {r : MemoryViewReader} {b : Nat}
    (h : r.buffer.get? r.position = some b) :
    r.read_u8 = .ok (b, ⟨r.buffer, r.position + 1⟩) := by
  unfold MemoryViewReader.read_u8
  rw [h]

theorem MemoryViewReader.readIntLoop_ok_spec (r : MemoryViewReader) (value i : Nat) (r1 : MemoryViewReader)
    (h : MemoryViewReader.readIntLoop [0, 7, 14, 21, 28] 0 r = .ok (value, i, r1)) :
    ∃ n, 1 ≤ n ∧ n ≤ 5 ∧ i = 7 * (n - 1) ∧
      r1 = ⟨r.buffer, r.position + n⟩ ∧
      r.position + n ≤ r.buffer.length ∧
      (∀ j, j + 1 < n → r.buffer.getD (r.position + j) 0 &&& 0x80 ≠ 0) ∧
      (n < 5 → r.buffer.getD (r.position + n - 1) 0 &&& 0x80 = 0) ∧
      value = varintValue r.buffer r.position n := by
  simp only [MemoryViewReader.readIntLoop] at h
  obtain ⟨b0, hb0⟩ : ∃ b, MemoryViewReader.read_u8 r
      = .ok (b, ⟨r.buffer, r.position + 1⟩) := by
    cases hb : MemoryViewReader.read_u8 r with
    | error e => rw [hb] at h; dsimp only at h; simp at h
    | ok p =>
      obtain ⟨g, r2⟩ := p
      have hr2 := (read_u8_ok hb).2
      exact ⟨g, by rw [hr2]⟩
  have hg0 : r.buffer.get? (r.position + 0) = some b0 := (read_u8_ok hb0).1
  rw [hb0] at h
  dsimp only at h
  by_cases hc0 : b0 &&& 128 = 0
  · rw [if_pos hc0] at h
    simp only [Except.ok.injEq, Prod.mk.injEq] at h
    obtain ⟨hvv, hii, hrr⟩ := h
    have hd0 : r.buffer.getD (r.position + 0) 0 = b0 := by
      rw [List.getD_eq_get?, hg0]; rfl
    refine ⟨1, by omega, by omega, by omega, hrr.symm, ?_, ?_, ?_, ?_⟩
    · obtain ⟨hlt, -⟩ := List.get?_eq_some.mp hg0
      omega
    · intro j hj
      omega
    · intro _
      rw [show r.position + 1 - 1 = r.position + 0 from by omega, hd0]
      exact hc0
    · rw [← hvv]
      simp only [varintValue, hd0]
      try norm_num
  rw [if_neg hc0] at h
  obtain ⟨b1, hb1⟩ : ∃ b, MemoryViewReader.read_u8 (⟨r.buffer, r.position + 1⟩ : MemoryViewReader)
      = .ok (b, ⟨r.buffer, r.position + 2⟩) := by
    cases hb : MemoryViewReader.read_u8 (⟨r.buffer, r.position + 1⟩ : MemoryViewReader) with
    | error e => rw [hb] at h; dsimp only at h; simp at h
    | ok p =>
      obtain ⟨g, r2⟩ := p
      have hr2 := (read_u8_ok hb).2
      exact ⟨g, by rw [hr2]⟩
  have hg1 : r.buffer.get? (r.position + 1) = some b1 := (read_u8_ok hb1).1
  rw [hb1] at h
  dsimp only at h
  by_cases hc1 : b1 &&& 128 = 0
  · rw [if_pos hc1] at h
    simp only [Except.ok.injEq, Prod.mk.injEq] at h
    obtain ⟨hvv, hii, hrr⟩ := h
    have hd0 : r.buffer.getD (r.position + 0) 0 = b0 := by
      rw [List.getD_eq_get?, hg0]; rfl
    have hd1 : r.buffer.getD (r.position + 1) 0 = b1 := by
      rw [List.getD_eq_get?, hg1]; rfl
    refine ⟨2, by omega, by omega, by omega, hrr.symm, ?_, ?_, ?_, ?_⟩
    · obtain ⟨hlt, -⟩ := List.get?_eq_some.mp hg1
      omega
    · intro j hj
      have hjb : j < 1 := by omega
      interval_cases j
      · rw [hd0]
        exact hc0
    · intro _
      rw [show r.position + 2 - 1 = r.position + 1 from by omega, hd1]
      exact hc1
    · rw [← hvv]
      simp only [varintValue, hd0, hd1]
      try norm_num
  rw [if_neg hc1] at h
  obtain ⟨b2, hb2⟩ : ∃ b, MemoryViewReader.read_u8 (⟨r.buffer, r.position + 2⟩ : MemoryViewReader)
      = .ok (b, ⟨r.buffer, r.position + 3⟩) := by
    cases hb : MemoryViewReader.read_u8 (⟨r.buffer, r.position + 2⟩ : MemoryViewReader) with
    | error e => rw [hb] at h; dsimp only at h; simp at h
    | ok p =>
      obtain ⟨g, r2⟩ := p
      have hr2 := (read_u8_ok hb).2
      exact ⟨g, by rw [hr2]⟩
  have hg2 : r.buffer.get? (r.position + 2) = some b2 := (read_u8_ok hb2).1
  rw [hb2] at h
  dsimp only at h
  by_cases hc2 : b2 &&& 128 = 0
  · rw [if_pos hc2] at h
    simp only [Except.ok.injEq, Prod.mk.injEq] at h
    obtain ⟨hvv, hii, hrr⟩ := h
    have hd0 : r.buffer.getD (r.position + 0) 0 = b0 := by
      rw [List.getD_eq_get?, hg0]; rfl
    have hd1 : r.buffer.getD (r.position + 1) 0 = b1 := by
      rw [List.getD_eq_get?, hg1]; rfl
    have hd2 : r.buffer.getD (r.position + 2) 0 = b2 := by
      rw [List.getD_eq_get?, hg2]; rfl
    refine ⟨3, by omega, by omega, by omega, hrr.symm, ?_, ?_, ?_, ?_⟩
    · obtain ⟨hlt, -⟩ := List.get?_eq_some.mp hg2
      omega
    · intro j hj
      have hjb : j < 2 := by omega
      interval_cases j
      · rw [hd0]
        exact hc0
      · rw [hd1]
        exact hc1
    · intro _
      rw [show r.position + 3 - 1 = r.position + 2 from by omega, hd2]
      exact hc2
    · rw [← hvv]
      simp only [varintValue, hd0, hd1, hd2]
      try norm_num
  rw [if_neg hc2] at h
  obtain ⟨b3, hb3⟩ : ∃ b, MemoryViewReader.read_u8 (⟨r.buffer, r.position + 3⟩ : MemoryViewReader)
      = .ok (b, ⟨r.buffer, r.position + 4⟩) := by
    cases hb : MemoryViewReader.read_u8 (⟨r.buffer, r.position + 3⟩ : MemoryViewReader) with
    | error e => rw [hb] at h; dsimp only at h; simp at h
    | ok p =>
      obtain ⟨g, r2⟩ := p
      have hr2 := (read_u8_ok hb).2
      exact ⟨g, by rw [hr2]⟩
  have hg3 : r.buffer.get? (r.position + 3) = some b3 := (read_u8_ok hb3).1
  rw [hb3] at h
  dsimp only at h
  by_cases hc3 : b3 &&& 128 = 0
  · rw [if_pos hc3] at h
    simp only [Except.ok.injEq, Prod.mk.injEq] at h
    obtain ⟨hvv, hii, hrr⟩ := h
    have hd0 : r.buffer.getD (r.position + 0) 0 = b0 := by
      rw [List.getD_eq_get?, hg0]; rfl
    have hd1 : r.buffer.getD (r.position + 1) 0 = b1 := by
      rw [List.getD_eq_get?, hg1]; rfl
    have hd2 : r.buffer.getD (r.position + 2) 0 = b2 := by
      rw [List.getD_eq_get?, hg2]; rfl
    have hd3 : r.buffer.getD (r.position + 3) 0 = b3 := by
      rw [List.getD_eq_get?, hg3]; rfl
    refine ⟨4, by omega, by omega, by omega, hrr.symm, ?_, ?_, ?_, ?_⟩
    · obtain ⟨hlt, -⟩ := List.get?_eq_some.mp hg3
      omega
    · intro j hj
      have hjb : j < 3 := by omega
      interval_cases j
      · rw [hd0]
        exact hc0
      · rw [hd1]
        exact hc1
      · rw [hd2]
        exact hc2
    · intro _
      rw [show r.position + 4 - 1 = r.position + 3 from by omega, hd3]
      exact hc3
    · rw [← hvv]
      simp only [varintValue, hd0, hd1, hd2, hd3]
      try norm_num
  rw [if_neg hc3] at h
  obtain ⟨b4, hb4⟩ : ∃ b, MemoryViewReader.read_u8 (⟨r.buffer, r.position + 4⟩ : MemoryViewReader)
      = .ok (b, ⟨r.buffer, r.position + 5⟩) := by
    cases hb : MemoryViewReader.read_u8 (⟨r.buffer, r.position + 4⟩ : MemoryViewReader) with
    | error e => rw [hb] at h; dsimp only at h; simp at h
    | ok p =>
      obtain ⟨g, r2⟩ := p
      have hr2 := (read_u8_ok hb).2
      exact ⟨g, by rw [hr2]⟩
  have hg4 : r.buffer.get? (r.position + 4) = some b4 := (read_u8_ok hb4).1
  rw [hb4] at h
  dsimp only at h
  rw [ite_self] at h
  simp only [Except.ok.injEq, Prod.mk.injEq] at h
  obtain ⟨hvv, hii, hrr⟩ := h
  have hd0 : r.buffer.getD (r.position + 0) 0 = b0 := by
    rw [List.getD_eq_get?, hg0]; rfl
  have hd1 : r.buffer.getD (r.position + 1) 0 = b1 := by
    rw [List.getD_eq_get?, hg1]; rfl
  have hd2 : r.buffer.getD (r.position + 2) 0 = b2 := by
    rw [List.getD_eq_get?, hg2]; rfl
  have hd3 : r.buffer.getD (r.position + 3) 0 = b3 := by
    rw [List.getD_eq_get?, hg3]; rfl
  have hd4 : r.buffer.getD (r.position + 4) 0 = b4 := by
    rw [List.getD_eq_get?, hg4]; rfl
  refine ⟨5, by omega, by omega, by omega, hrr.symm, ?_, ?_, ?_, ?_⟩
  · obtain ⟨hlt, -⟩ := List.get?_eq_some.mp hg4
    omega
  · intro j hj
    have hjb : j < 4 := by omega
    interval_cases j
    · rw [hd0]
      exact hc0
    · rw [hd1]
      exact hc1
    · rw [hd2]
      exact hc2
    · rw [hd3]
      exact hc3
  · intro habs
    omega
  · rw [← hvv]
    simp only [varintValue, hd0, hd1, hd2, hd3, hd4]
    try norm_num

theorem read_int_ok_spec (r : MemoryViewReader) (u : Bool) (v : Int)
    (r1 : MemoryViewReader) (h : r.read_int u = .ok (v, r1)) :
    ∃ n, 1 ≤ n ∧ n ≤ 5 ∧
      r1 = ⟨r.buffer, r.position + n⟩ ∧
      r.position + n ≤ r.buffer.length ∧
      (∀ j, j + 1 < n → r.buffer.getD (r.position + j) 0 &&& 0x80 ≠ 0) ∧
      (n < 5 → r.buffer.getD (r.position + n - 1) 0 &&& 0x80 = 0) ∧
      v = (if u then ((varintValue r.buffer r.position n : Nat) : Int)
           else MemoryViewReader.extend_sign (varintValue r.buffer r.position n)
                  (0x40 <<< (7 * (n - 1)))) := by
  unfold MemoryViewReader.read_int at h
  cases hloop : MemoryViewReader.readIntLoop [0, 7, 14, 21, 28] 0 r with
  | error e => rw [hloop] at h; dsimp only at h; simp at h
  | ok t =>
    obtain ⟨value, i, r2⟩ := t
    rw [hloop] at h
    dsimp only at h
    obtain ⟨n, hn1, hn5, hi, hr2, hlen, hcont, hbrk, hval⟩ :=
      MemoryViewReader.readIntLoop_ok_spec r value i r2 hloop
    cases u with
    | false =>
      rw [if_neg (by simp : ¬ (false = true))] at h
      simp only [Except.ok.injEq, Prod.mk.injEq] at h
      obtain ⟨hv, hr⟩ := h
      refine ⟨n, hn1, hn5, by rw [← hr]; exact hr2, hlen, hcont, hbrk, ?_⟩
      rw [if_neg (by simp : ¬ (false = true)), ← hv, hval, hi]
    | true =>
      rw [if_pos (rfl : true = true)] at h
      simp only [Except.ok.injEq, Prod.mk.injEq] at h
      obtain ⟨hv, hr⟩ := h
      refine ⟨n, hn1, hn5, by rw [← hr]; exact hr2, hlen, hcont, hbrk, ?_⟩
      rw [if_pos (rfl : true = true), ← hv, hval]

/-- C4: whenever the variable-length 32-bit integer decoder succeeds it
has consumed `n ≤ 5` bytes, all but the last carrying the 0x80
continuation bit (and the last byte's high bit clear unless five bytes
were consumed); the accumulated value collects the 7-bit groups low to
high, and in signed mode the result is
`(value & (mask-1)) - (value & mask)` with `mask = 0x40 << 7*(n-1)`,
the bit position of the last consumed group. -/
theorem claim4_read_int_varint_semantics (r : MemoryViewReader) (u : Bool)
    (v : Int) (r1 : MemoryViewReader) (h : r.read_int u = .ok (v, r1)) :
    ∃ n, 1 ≤ n ∧ n ≤ 5 ∧
      r1 = ⟨r.buffer, r.position + n⟩ ∧
      r.position + n ≤ r.buffer.length ∧
      (∀ j, j + 1 < n → r.buffer.getD (r.position + j) 0 &&& 0x80 ≠ 0) ∧
      (n < 5 → r.buffer.getD (r.position + n - 1) 0 &&& 0x80 = 0) ∧
      v = (if u then ((varintValue r.buffer r.position n : Nat) : Int)
           else MemoryViewReader.extend_sign (varintValue r.buffer r.position n)
                  (0x40 <<< (7 * (n - 1)))) :=
  read_int_ok_spec r u v r1 h

/-- C4 witness: decoding `85 01` (unsigned) consumes two bytes and yields
`5 + (1 << 7) = 133`. -/
theorem claim4_read_int_varint_semantics_witness :
    ∃ n, 1 ≤ n ∧ n ≤ 5 ∧
      (⟨[0x85, 0x01], 2⟩ : MemoryViewReader) = ⟨[0x85, 0x01], 0 + n⟩ ∧
      0 + n ≤ ([0x85, 0x01] : List Nat).length ∧
      (∀ j, j + 1 < n → ([0x85, 0x01] : List Nat).getD (0 + j) 0 &&& 0x80 ≠ 0) ∧
      (n < 5 → ([0x85, 0x01] : List Nat).getD (0 + n - 1) 0 &&& 0x80 = 0) ∧
      (133 : Int) = (if true then ((varintValue [0x85, 0x01] 0 n : Nat) : Int)
           else MemoryViewReader.extend_sign (varintValue [0x85, 0x01] 0 n)
                  (0x40 <<< (7 * (n - 1)))) :=
  claim4_read_int_varint_semantics ⟨[0x85, 0x01], 0⟩ true 133 ⟨[0x85, 0x01], 2⟩ rfl

/-- C8 amended: the byte reader's actual failure behaviour — `read` past
the buffer returns the available (possibly empty) prefix and never
fails; the fixed-width `read_u8` past the end raises `IndexError`;
decoding a null-terminated string whose bytes are not valid UTF-8 raises
the host `UnicodeDecodeError`; and a variable-length integer whose first
five bytes all have the continuation bit set is accepted without error,
consuming exactly five bytes and returning the accumulated value. -/
theorem claim8_reader_failure_modes :
    (∀ (r : MemoryViewReader) (size : Nat),
      r.read size = .ok ((r.buffer.drop r.position).take size,
        ⟨r.buffer, r.position + ((r.buffer.drop r.position).take size).length⟩)
      ∧ ((r.buffer.drop r.position).take size).length ≤ size)
    ∧ (∀ r : MemoryViewReader, r.buffer.length ≤ r.position →
        r.read_u8 = .error .indexError)
    ∧ (∀ (r : MemoryViewReader) (bs : List Nat) (r2 : MemoryViewReader),
        r.read_until 0 = .ok (bs, r2) → pyUtf8Decode bs = none →
        r.read_string = .error .unicodeDecodeError)
    ∧ (∀ (r : MemoryViewReader) (b0 b1 b2 b3 b4 : Nat),
        r.buffer.get? r.position = some b0 →
        r.buffer.get? (r.position + 1) = some b1 →
        r.buffer.get? (r.position + 2) = some b2 →
        r.buffer.get? (r.position + 3) = some b3 →
        r.buffer.get? (r.position + 4) = some b4 →
        ¬ b0 &&& 0x80 = 0 → ¬ b1 &&& 0x80 = 0 → ¬ b2 &&& 0x80 = 0 →
        ¬ b3 &&& 0x80 = 0 → ¬ b4 &&& 0x80 = 0 →
        ∃ w r2, r.read_int true = .ok (w, r2) ∧
          r2 = ⟨r.buffer, r.position + 5⟩ ∧
          w = ((varintValue r.buffer r.position 5 : Nat) : Int)) := by
  refine ⟨?_, ?_, ?_, ?_⟩
  · intro r size
    exact ⟨rfl, List.length_take_le _ _⟩
  · intro r hlen
    unfold MemoryViewReader.read_u8
    rw [List.get?_eq_none.mpr hlen]
  · intro r bs r2 h1 h2
    unfold MemoryViewReader.read_string
    rw [h1]
    dsimp only
    rw [h2]
  · intro r b0 b1 b2 b3 b4 hg0 hg1 hg2 hg3 hg4 hc0 hc1 hc2 hc3 hc4
    have hsucc : ∃ w r2, r.read_int true = .ok (w, r2) := by
      unfold MemoryViewReader.read_int
      simp only [MemoryViewReader.readIntLoop]
      rw [@read_u8_of_get r b0 hg0]
      dsimp only
      rw [if_neg hc0]
      rw [@read_u8_of_get ⟨r.buffer, r.position + 1⟩ b1 hg1]
      dsimp only
      rw [if_neg hc1]
      rw [@read_u8_of_get ⟨r.buffer, r.position + 2⟩ b2 hg2]
      dsimp only
      rw [if_neg hc2]
      rw [@read_u8_of_get ⟨r.buffer, r.position + 3⟩ b3 hg3]
      dsimp only
      rw [if_neg hc3]
      rw [@read_u8_of_get ⟨r.buffer, r.position + 4⟩ b4 hg4]
      dsimp only
      rw [if_neg hc4]
      exact ⟨_, _, rfl⟩
    obtain ⟨w, r2, hok⟩ := hsucc
    obtain ⟨n, hn1, hn5, hr2, hlen2, hcont, hbrk, hval⟩ :=
      read_int_ok_spec r true w r2 hok
    have hn : n = 5 := by
      by_contra hne
      have hb := hbrk (by omega)
      interval_cases n
      · rw [show r.position + 1 - 1 = r.position from by omega,
          List.getD_eq_get?, hg0, Option.getD_some] at hb
        exact hc0 hb
      · rw [show r.position + 2 - 1 = r.position + 1 from by omega,
          List.getD_eq_get?, hg1, Option.getD_some] at hb
        exact hc1 hb
      · rw [show r.position + 3 - 1 = r.position + 2 from by omega,
          List.getD_eq_get?, hg2, Option.getD_some] at hb
        exact hc2 hb
      · rw [show r.position + 4 - 1 = r.position + 3 from by omega,
          List.getD_eq_get?, hg3, Option.getD_some] at hb
        exact hc3 hb
      · exact hne rfl
    subst hn
    exact ⟨w, r2, hok, hr2, by exact hval⟩

/-- C8 amended, witness: a short read on a one-byte buffer, `read_u8` at
the end of an empty buffer, an invalid UTF-8 string, and the accepted
five-continuation-byte varint. -/
theorem claim8_reader_failure_modes_witness :
    (MemoryViewReader.read ⟨[7], 0⟩ 3
        = .ok ((([7] : List Nat).drop 0).take 3,
          ⟨[7], 0 + ((([7] : List Nat).drop 0).take 3).length⟩)
      ∧ ((([7] : List Nat).drop 0).take 3).length ≤ 3)
    ∧ MemoryViewReader.read_u8 ⟨[], 5⟩ = .error .indexError
    ∧ MemoryViewReader.read_string ⟨[0x80, 0], 0⟩ = .error .unicodeDecodeError
    ∧ (∃ w r2,
        MemoryViewReader.read_int ⟨[0x80, 0x80, 0x80, 0x80, 0x80], 0⟩ true
          = .ok (w, r2) ∧
        r2 = ⟨[0x80, 0x80, 0x80, 0x80, 0x80], 0 + 5⟩ ∧
        w = ((varintValue [0x80, 0x80, 0x80, 0x80, 0x80] 0 5 : Nat) : Int)) :=
  ⟨claim8_reader_failure_modes.1 ⟨[7], 0⟩ 3,
   claim8_reader_failure_modes.2.1 ⟨[], 5⟩ (by decide),
   claim8_reader_failure_modes.2.2.1 ⟨[0x80, 0], 0⟩ [0x80] ⟨[0x80, 0], 2⟩ rfl rfl,
   claim8_reader_failure_modes.2.2.2 ⟨[0x80, 0x80, 0x80, 0x80, 0x80], 0⟩
     0x80 0x80 0x80 0x80 0x80 rfl rfl rfl rfl rfl
     (by decide) (by decide) (by decide) (by decide) (by decide)⟩

end AVM2
